import Mathlib

/-! Verification of the gem5-statistics parsing and metric-derivation code of
this repository.  The Python scripts are shallowly embedded: machine floats
are modelled as exact rationals (with explicit infinity and NaN markers),
Python dictionaries as insertion-ordered association lists, and fallible
Python code as `Option`/`Except` values. -/

attribute [local semireducible] Rat.add Rat.mul Rat.inv Rat.sub Rat.ofScientific

/-- ASCII whitespace recognised by Python's `str.split` and by the regex
class backslash-s. -/
def isWs (c : Char) : Bool :=
  decide (c = ' ' ∨ c = '\t' ∨ c = '\n' ∨ c = '\r' ∨ c = '\x0b' ∨ c = '\x0c')

/-- Decimal digit test. -/
def isDig (c : Char) : Bool :=
  decide (48 ≤ c.toNat ∧ c.toNat ≤ 57)

/-- Membership of a character in a character list (Python `c in s`). -/
def containsChar : List Char → Char → Bool
  | [], _ => false
  | c :: cs, d => decide (c = d) || containsChar cs d

/-- Value of a list of decimal digit characters, most significant first. -/
def digitsToNat (cs : List Char) : ℕ :=
  cs.foldl (fun a c => 10 * a + (c.toNat - 48)) 0

/-- Parse a non-empty all-digit character list. -/
def digitsVal? (cs : List Char) : Option ℕ :=
  if cs ≠ [] ∧ cs.all isDig then some (digitsToNat cs) else none

/-- Model of Python's `int(token)` on whitespace-free tokens: an optional
sign followed by one or more decimal digits.  (Digit-group underscores,
which never occur in simulator output, are not modelled.) -/
def pyInt? (s : String) : Option ℤ :=
  match s.toList with
  | '+' :: r =>
    match digitsVal? r with
    | some n => some (n : ℤ)
    | none => none
  | '-' :: r =>
    match digitsVal? r with
    | some n => some (-(n : ℤ))
    | none => none
  | r =>
    match digitsVal? r with
    | some n => some (n : ℤ)
    | none => none

/-- Model of a Python machine float: an exact rational for finite values
(IEEE rounding is not modelled), plus signed infinity and NaN. -/
inductive PyFloat where
  | finite (q : ℚ)
  | inf (neg : Bool)
  | nan
deriving DecidableEq, Repr

/-- Exact value of a decimal literal with integer part `ip` and fractional
part `fp`. -/
def decVal (ip fp : List Char) : ℚ :=
  (digitsToNat ip : ℚ) + (digitsToNat fp : ℚ) / ((10 : ℚ) ^ fp.length)

/-- Parse the exponent part of a float literal (after the `e`/`E`). -/
def expVal? (cs : List Char) : Option ℤ :=
  match cs with
  | '+' :: r =>
    match digitsVal? r with
    | some n => some (n : ℤ)
    | none => none
  | '-' :: r =>
    match digitsVal? r with
    | some n => some (-(n : ℤ))
    | none => none
  | r =>
    match digitsVal? r with
    | some n => some (n : ℤ)
    | none => none

/-- Parse an unsigned decimal float literal: digits with an optional single
point and an optional `e`/`E` exponent, requiring at least one digit in the
mantissa. -/
def parseUnsigned (cs : List Char) : Option ℚ :=
  match cs.dropWhile isDig with
  | '.' :: r2 =>
    if cs.takeWhile isDig = [] ∧ r2.takeWhile isDig = [] then none
    else
      match r2.dropWhile isDig with
      | [] => some (decVal (cs.takeWhile isDig) (r2.takeWhile isDig))
      | c :: r4 =>
        if c = 'e' ∨ c = 'E' then
          match expVal? r4 with
          | some k =>
            some (decVal (cs.takeWhile isDig) (r2.takeWhile isDig) * (10 : ℚ) ^ k)
          | none => none
        else none
  | [] =>
    if cs.takeWhile isDig = [] then none
    else some (decVal (cs.takeWhile isDig) [])
  | c :: r4 =>
    if (c = 'e' ∨ c = 'E') ∧ cs.takeWhile isDig ≠ [] then
      match expVal? r4 with
      | some k => some (decVal (cs.takeWhile isDig) [] * (10 : ℚ) ^ k)
      | none => none
    else none

/-- Lower-case the ASCII letters appearing in `inf`, `infinity`, `nan`. -/
def lowAscii (c : Char) : Char :=
  if c = 'I' then 'i' else if c = 'N' then 'n' else if c = 'F' then 'f'
  else if c = 'T' then 't' else if c = 'Y' then 'y' else c

/-- Case-insensitive comparison against a lower-case literal. -/
def nameEq (cs lit : List Char) : Bool :=
  decide (cs.map lowAscii = lit)

/-- Body of `float(token)` after the optional sign has been stripped. -/
def pyFloatCore (cs : List Char) (neg : Bool) : Option PyFloat :=
  if nameEq cs ['i', 'n', 'f'] ∨ nameEq cs ['i', 'n', 'f', 'i', 'n', 'i', 't', 'y'] then
    some (.inf neg)
  else if nameEq cs ['n', 'a', 'n'] then some .nan
  else
    match parseUnsigned cs with
    | some q => some (.finite (if neg then -q else q))
    | none => none

/-- Model of Python's `float(token)` on whitespace-free tokens. -/
def pyFloat? (s : String) : Option PyFloat :=
  match s.toList with
  | '+' :: r => pyFloatCore r false
  | '-' :: r => pyFloatCore r true
  | r => pyFloatCore r false

/-- A parsed statistic value: Python `int`, `float`, or the raw string kept
when numeric conversion fails. -/
inductive Value where
  | int (n : ℤ)
  | float (f : PyFloat)
  | str (s : String)
deriving DecidableEq, Repr

/-- First-match lookup in an association list (keys are unique, so this is
Python dict lookup). -/
def lookupKV {α : Type} : List (String × α) → String → Option α
  | [], _ => none
  | (k', v) :: rest, k => if k' = k then some v else lookupKV rest k

/-- Python dict assignment: overwrite in place, else append. -/
def insertKV {α : Type} : List (String × α) → String → α → List (String × α)
  | [], k, v => [(k, v)]
  | (k', w) :: rest, k, v =>
    if k' = k then (k, v) :: rest else (k', w) :: insertKV rest k v

/-- Python `dict.get(key, default)`. -/
def getKV {α : Type} (st : List (String × α)) (k : String) (d : α) : α :=
  (lookupKV st k).getD d

/-- Whitespace-run splitter: model of Python's `str.split()` with no
arguments. -/
def tokAux : List Char → List Char → List (List Char)
  | acc, [] => if acc = [] then [] else [acc]
  | acc, c :: cs =>
    if isWs c then (if acc = [] then tokAux [] cs else acc :: tokAux [] cs)
    else tokAux (acc ++ [c]) cs

/-- Tokens of a line, as `line.split()` produces them. -/
def tokensOf (cs : List Char) : List (List Char) := tokAux [] cs

/-- Python `line.startswith('#')`. -/
def startsHash : List Char → Bool
  | '#' :: _ => true
  | _ => false

/-- Python `'::' in line`. -/
def containsColons : List Char → Bool
  | c :: d :: rest => decide (c = ':' ∧ d = ':') || containsColons (d :: rest)
  | _ => false

/-- Split file content into lines, as iterating a Python file handle does
(the trailing empty piece after a final newline is skipped by every
parser's filters). -/
def linesOf (s : String) : List String := s.splitOn "\n"

namespace ILP

/-- Value coercion of `analyze_results.py`: float when the token contains a
decimal point, otherwise int; the raw string on `ValueError`. -/
def coerceValue (s : String) : Value :=
  if containsChar s.toList '.' then
    match pyFloat? s with
    | some f => .float f
    | none => .str s
  else
    match pyInt? s with
    | some n => .int n
    | none => .str s

/-- One loop iteration of `parse_stats_file` in `analyze_results.py`: skip
comments and blank lines, store `parts[1]` under `parts[0]` when the line
has at least two tokens. -/
def parseStep (st : List (String × Value)) (line : String) : List (String × Value) :=
  if startsHash line.toList ∨ line.toList.all isWs then st
  else
    match tokensOf line.toList with
    | k :: v :: _ => insertKV st (String.mk k) (coerceValue (String.mk v))
    | _ => st

/-- The line loop of `parse_stats_file` in `analyze_results.py`. -/
def parse_lines (ls : List String) : List (String × Value) :=
  ls.foldl parseStep []

/-- `parse_stats_file` of `analyze_results.py`: a missing file yields the
empty stats dict (after a printed warning). -/
def parse_stats_file (fs : String → Option String) (path : String) :
    List (String × Value) :=
  match fs path with
  | none => []
  | some content => parse_lines (linesOf content)

end ILP

namespace DLP

/-- Value coercion of `parse_gem_stat.py`: always `float`, falling back to
the raw string. -/
def coerceValue (s : String) : Value :=
  match pyFloat? s with
  | some f => .float f
  | none => .str s

/-- One loop iteration of `parse_stats_file` in `parse_gem_stat.py`: only
lines containing `::` and not starting with `#` are considered. -/
def parseStep (st : List (String × Value)) (line : String) : List (String × Value) :=
  if containsColons line.toList ∧ ¬ startsHash line.toList then
    match tokensOf line.toList with
    | k :: v :: _ => insertKV st (String.mk k) (coerceValue (String.mk v))
    | _ => st
  else st

/-- The line loop of `parse_stats_file` in `parse_gem_stat.py`. -/
def parse_lines (ls : List String) : List (String × Value) :=
  ls.foldl parseStep []

end DLP

/-- Possible Python run-time errors of the embedded code. -/
inductive PyErr where
  | fileNotFound
  | zeroDivision
  | typeError
deriving DecidableEq, Repr

deriving instance DecidableEq for Except

namespace DLP

/-- `parse_stats_file` of `parse_gem_stat.py`: the file is opened with no
existence check, so a missing path raises `FileNotFoundError`. -/
def parse_stats_file (fs : String → Option String) (path : String) :
    Except PyErr (List (String × Value)) :=
  match fs path with
  | none => .error .fileNotFound
  | some content => .ok (parse_lines (linesOf content))

end DLP

/-- Numeric view of a `Value` for Python arithmetic: ints are promoted to
floats, strings are not numbers. -/
def toPF : Value → Option PyFloat
  | .int n => some (.finite (n : ℚ))
  | .float f => some f
  | .str _ => none

/-- Finite numeric value of a `Value`, when it has one. -/
def valQ? : Value → Option ℚ
  | .int n => some (n : ℚ)
  | .float (.finite q) => some q
  | _ => none

/-- A `Value` that is a finite number (an int or a finite float). -/
def isFiniteNum (v : Value) : Bool :=
  (valQ? v).isSome

/-- Python float division on the `PyFloat` model: dividing by finite zero
raises `ZeroDivisionError` (even for NaN or infinite numerators). -/
def pfDiv (x y : PyFloat) : Except PyErr PyFloat :=
  match y with
  | .finite b =>
    if b = 0 then .error .zeroDivision
    else
      match x with
      | .finite a => .ok (.finite (a / b))
      | .inf s => .ok (.inf (xor s (decide (b < 0))))
      | .nan => .ok .nan
  | .inf _ =>
    match x with
    | .finite _ => .ok (.finite 0)
    | .inf _ => .ok .nan
    | .nan => .ok .nan
  | .nan => .ok .nan

/-- Python subtraction on the `PyFloat` model. -/
def pfSub (x y : PyFloat) : PyFloat :=
  match x, y with
  | .nan, _ => .nan
  | _, .nan => .nan
  | .inf s, .inf t => if s = t then .nan else .inf s
  | .inf s, .finite _ => .inf s
  | .finite _, .inf t => .inf (!t)
  | .finite a, .finite b => .finite (a - b)

/-- Python multiplication on the `PyFloat` model. -/
def pfMul (x y : PyFloat) : PyFloat :=
  match x, y with
  | .nan, _ => .nan
  | _, .nan => .nan
  | .inf s, .inf t => .inf (xor s t)
  | .inf s, .finite q => if q = 0 then .nan else .inf (xor s (decide (q < 0)))
  | .finite q, .inf s => if q = 0 then .nan else .inf (xor s (decide (q < 0)))
  | .finite a, .finite b => .finite (a * b)

/-- Python `/` on parsed stat values: true division, `TypeError` on
strings. -/
def pyDiv (a b : Value) : Except PyErr PyFloat :=
  match toPF a, toPF b with
  | some x, some y => pfDiv x y
  | _, _ => .error .typeError

/-- Python `-` on parsed stat values: int stays int, otherwise float
arithmetic; `TypeError` on strings. -/
def pySub (a b : Value) : Except PyErr Value :=
  match a, b with
  | .int m, .int n => .ok (.int (m - n))
  | _, _ =>
    match toPF a, toPF b with
    | some x, some y => .ok (.float (pfSub x y))
    | _, _ => .error .typeError

/-- Python `*` on parsed stat values: int stays int, otherwise float
arithmetic; `TypeError` on strings. -/
def pyMul (a b : Value) : Except PyErr Value :=
  match a, b with
  | .int m, .int n => .ok (.int (m * n))
  | _, _ =>
    match toPF a, toPF b with
    | some x, some y => .ok (.float (pfMul x y))
    | _, _ => .error .typeError

/-- Python `v > 0` on a parsed stat value: `TypeError` when `v` is a
string, `False` for NaN. -/
def pyGtZero : Value → Except PyErr Bool
  | .int n => .ok (decide (0 < n))
  | .float (.finite q) => .ok (decide (0 < q))
  | .float (.inf s) => .ok (!s)
  | .float .nan => .ok false
  | .str _ => .error .typeError

/-- Python truthiness of a parsed stat value (`if v:`). -/
def truthy : Value → Bool
  | .int n => decide (n ≠ 0)
  | .float (.finite q) => decide (q ≠ 0)
  | .float (.inf _) => true
  | .float .nan => true
  | .str s => decide (s ≠ "")

namespace DLP

/-- Result record of `extract_key_metrics` in `parse_gem_stat.py`. -/
structure KeyMetrics where
  sim_seconds : Value
  sim_ticks : Value
  sim_insts : Value
  ipc : Value
  dcache_hit_rate : PyFloat
  icache_hit_rate : PyFloat
deriving DecidableEq, Repr

/-- `extract_key_metrics` of `parse_gem_stat.py`: copies four stats with
default 0 and derives the two cache hit rates as
`overallHits::total / overallAccesses::total`, the denominator defaulting
to 1 only when its key is absent. -/
def extract_key_metrics (stats : List (String × Value)) :
    Except PyErr KeyMetrics := do
  let dh ← pyDiv (getKV stats "system.cpu.dcache.overallHits::total" (.int 0))
    (getKV stats "system.cpu.dcache.overallAccesses::total" (.int 1))
  let ih ← pyDiv (getKV stats "system.cpu.icache.overallHits::total" (.int 0))
    (getKV stats "system.cpu.icache.overallAccesses::total" (.int 1))
  pure
    { sim_seconds := getKV stats "sim_seconds" (.int 0)
      sim_ticks := getKV stats "sim_ticks" (.int 0)
      sim_insts := getKV stats "system.cpu.committedInsts" (.int 0)
      ipc := getKV stats "system.cpu.ipc" (.int 0)
      dcache_hit_rate := dh
      icache_hit_rate := ih }

end DLP

namespace ILP

/-- The instruction-count lookup of `analyze_experiment`: the first present
key among `system.cpu.numInsts` and
`system.cpu.commitStats0.committedInsts`. -/
def instsLookup (stats : List (String × Value)) : Option Value :=
  match lookupKV stats "system.cpu.numInsts" with
  | some v => some v
  | none => lookupKV stats "system.cpu.commitStats0.committedInsts"

/-- The branch-prediction block of `analyze_experiment`: when
`condPredicted` compares greater than zero, the accuracy
`((predicted - incorrect) / predicted) * 100` is added to the results
dict, else the dict is returned unchanged. -/
def branchAccuracy (stats r0 : List (String × Value)) :
    Except PyErr (List (String × Value)) := do
  let bp := getKV stats "system.cpu.branchPred.condPredicted" (.int 0)
  let bi := getKV stats "system.cpu.branchPred.condIncorrect" (.int 0)
  let g ← pyGtZero bp
  if g then do
    let d ← pySub bp bi
    let r ← pyDiv d bp
    let acc ← pyMul (.float r) (.int 100)
    pure (insertKV r0 "branch_accuracy" acc)
  else pure r0

/-- The metric-derivation part of `analyze_experiment` in
`analyze_results.py`: on empty stats it returns `None`; otherwise it
computes IPC/CPI (and branch accuracy) only when both the instruction and
cycle counts are truthy, returning the `results` dict. -/
def analyze_experiment (stats : List (String × Value)) :
    Except PyErr (Option (List (String × Value))) :=
  if stats = [] then .ok none
  else
    match instsLookup stats with
    | none => .ok (some [])
    | some iv =>
      let cycles := getKV stats "system.cpu.numCycles" (.int 0)
      if truthy iv ∧ truthy cycles then do
        let ipc ← pyDiv iv cycles
        let cpi ← pyDiv cycles iv
        let r0 := insertKV (insertKV (insertKV (insertKV []
          "instructions" iv) "cycles" cycles) "ipc" (.float ipc)) "cpi" (.float cpi)
        let r ← branchAccuracy stats r0
        pure (some r)
      else .ok (some [])

end ILP

/-- Attempt the restricted regex `lit` followed by one-or-more whitespace
and a captured one-or-more run of the value class (digits, plus `.` when
`dotted`) at the very start of `s`, returning the capture.  Since nothing
follows the greedy capture and the classes are disjoint, no backtracking
can occur. -/
def dropLit? : List Char → List Char → Option (List Char)
  | [], s => some s
  | _, [] => none
  | c :: cs, d :: ds => if c = d then dropLit? cs ds else none

/-- Character class of a capture group: digits, plus `.` when `dotted`. -/
def capClass (dotted : Bool) (c : Char) : Bool :=
  isDig c || (dotted && decide (c = '.'))

/-- Match `lit` then whitespace then a capture at the start of `s`. -/
def matchAt (lit : List Char) (dotted : Bool) (s : List Char) : Option (List Char) :=
  match dropLit? lit s with
  | none => none
  | some r1 =>
    if r1.takeWhile isWs = ([] : List Char) then none
    else
      if (r1.dropWhile isWs).takeWhile (capClass dotted) = [] then none
      else some ((r1.dropWhile isWs).takeWhile (capClass dotted))

/-- `re.search` for the restricted patterns used by
`extract_comparison_report.py`: leftmost start position wins. -/
def searchPat (lit : List Char) (dotted : Bool) : List Char → Option (List Char)
  | [] => matchAt lit dotted []
  | c :: rest =>
    match matchAt lit dotted (c :: rest) with
    | some cap => some cap
    | none => searchPat lit dotted rest

/-- Python `float(cap)` on a regex capture from the digit-and-dot class;
such captures can never spell a sign, `inf` or `nan`, so the finite parse
suffices. -/
def capFloat? (cap : List Char) : Option ℚ :=
  match pyFloat? (String.mk cap) with
  | some (.finite q) => some q
  | _ => none

namespace RP

/-- The pattern table of `parse_stats_file` in
`extract_comparison_report.py`: output key, literal part of the regex, and
whether the capture class is the dotted one. -/
def patterns : List (String × List Char × Bool) :=
  [("sim_seconds", "sim_seconds".toList, true),
   ("sim_insts", "sim_insts".toList, false),
   ("ipc", "system.cpu.ipc".toList, true),
   ("num_cycles", "system.cpu.numCycles".toList, false),
   ("icache_miss_rate", "system.cpu.icache.overallMissRate::total".toList, true),
   ("dcache_miss_rate", "system.cpu.dcache.overallMissRate::total".toList, true),
   ("l2cache_miss_rate", "system.l2cache.overallMissRate::total".toList, true),
   ("icache_misses", "system.cpu.icache.overallMisses::total".toList, false),
   ("dcache_misses", "system.cpu.dcache.overallMisses::total".toList, false),
   ("l2cache_misses", "system.l2cache.overallMisses::total".toList, false)]

/-- The pattern loop of `parse_stats_file`: each key is bound to the float
of its first match, or `0.0` when the pattern has no match; a capture that
fails `float` raises `ValueError`, caught by the enclosing `except`, which
makes the whole parse return `None`. -/
def extractLoop : List (String × List Char × Bool) → List Char →
    Option (List (String × ℚ))
  | [], _ => some []
  | (k, lit, dotted) :: ps, content =>
    match searchPat lit dotted content with
    | none =>
      match extractLoop ps content with
      | some rest => some ((k, 0) :: rest)
      | none => none
    | some cap =>
      match capFloat? cap with
      | none => none
      | some q =>
        match extractLoop ps content with
        | some rest => some ((k, q) :: rest)
        | none => none

/-- The hit-rate block of `parse_stats_file`: the three derived entries
`hit_rate = 1.0 - metrics.get(miss_rate, 0.0)` appended in source order. -/
def addHitRates (m : List (String × ℚ)) : List (String × ℚ) :=
  let m1 := insertKV m "icache_hit_rate" (1 - getKV m "icache_miss_rate" 0)
  let m2 := insertKV m1 "dcache_hit_rate" (1 - getKV m1 "dcache_miss_rate" 0)
  insertKV m2 "l2cache_hit_rate" (1 - getKV m2 "l2cache_miss_rate" 0)

/-- `parse_stats_file` of `extract_comparison_report.py` applied to file
content: the ten pattern extractions followed by the three derived hit
rates. -/
def parse_content (content : String) : Option (List (String × ℚ)) :=
  match extractLoop patterns content.toList with
  | none => none
  | some m => some (addHitRates m)

/-- `parse_stats_file` of `extract_comparison_report.py`: a missing path
returns `None` before any read. -/
def parse_stats_file (fs : String → Option String) (path : String) :
    Option (List (String × ℚ)) :=
  match fs path with
  | none => none
  | some content => parse_content content

/-- Result record of `calculate_power_metrics`. -/
structure PowerMetrics where
  frequency_MHz : ℚ
  voltage_V : ℚ
  dynamic_power_mW : ℚ
  static_power_mW : ℚ
  total_power_mW : ℚ
  total_energy_mJ : ℚ
  energy_per_inst_pJ : ℚ
deriving DecidableEq, Repr

/-- The operating-point table of `calculate_power_metrics`, with its
`(200e6, 0.75)` default. -/
def op_params (op : String) : ℚ × ℚ :=
  if op = "low_power" then (100000000, 3/5)
  else if op = "balanced" then (200000000, 3/4)
  else if op = "high_perf" then (350000000, 9/10)
  else if op = "max_perf" then (500000000, 1)
  else (200000000, 3/4)

/-- `calculate_power_metrics` of `extract_comparison_report.py`.  The two
dict reads `metrics['sim_seconds']` and `metrics['sim_insts']` are passed
as arguments (both keys are always present in a successful parse).  The
float exponentiation `voltage ** 1.5` of the static-power term is not
expressible in exact rational arithmetic and is passed as the function
argument `pow15`; every other operation is translated literally. -/
def calculate_power_metrics (pow15 : ℚ → ℚ) (sim_seconds sim_insts : ℚ)
    (op : String) : PowerMetrics :=
  let fv := op_params op
  let freq := fv.1
  let voltage := fv.2
  let base_cap : ℚ := 50 / 1000000000000
  let activity : ℚ := 1/2
  let dynamic_power := base_cap * (voltage ^ 2) * freq * activity
  let static_power := (3/1000) * pow15 voltage
  let total_power := dynamic_power + static_power
  let total_energy := total_power * sim_seconds
  let energy_per_inst := if 0 < sim_insts then total_energy / sim_insts else 0
  { frequency_MHz := freq / 1000000
    voltage_V := voltage
    dynamic_power_mW := dynamic_power * 1000
    static_power_mW := static_power * 1000
    total_power_mW := total_power * 1000
    total_energy_mJ := total_energy * 1000
    energy_per_inst_pJ := energy_per_inst * 1000000000000 }

end RP

/-- Rational division as Python performs it: `ZeroDivisionError` on a zero
denominator. -/
def pyDivQ (a b : ℚ) : Except PyErr ℚ :=
  if b = 0 then .error .zeroDivision else .ok (a / b)

namespace EE

/-- `ProcessorConfig` of `energy_efficincy_analysis.py`. -/
structure ProcessorConfig where
  name : String
  cores : ℚ
  frequency_ghz : ℚ
  voltage : ℚ
  power_tdp : ℚ
  simd_width : ℚ
  cache_size_mb : ℚ
deriving DecidableEq, Repr

/-- The first entry of the analyzer's configuration table. -/
def scalarCPU : ProcessorConfig :=
  { name := "Scalar CPU", cores := 1, frequency_ghz := 7/2, voltage := 6/5,
    power_tdp := 65, simd_width := 1, cache_size_mb := 8 }

/-- `calculate_performance` of `EnergyEfficiencyAnalyzer`: the cache-factor
division faults when `workload_size / 1e6` is zero. -/
def calculate_performance (c : ProcessorConfig) (workload_size : ℚ) :
    Except PyErr ℚ := do
  let base_perf := c.cores * c.frequency_ghz * 1000000000
  let simd_efficiency : ℚ := 85/100
  let simd_perf := base_perf * c.simd_width * simd_efficiency
  let cache_factor ← pyDivQ c.cache_size_mb (workload_size / 1000000)
  pure (simd_perf * min 1 cache_factor)

/-- `calculate_power` of `EnergyEfficiencyAnalyzer`. -/
def calculate_power (c : ProcessorConfig) (utilization : ℚ) : ℚ :=
  let idle_power := c.power_tdp * (3/10)
  let dynamic_power := c.power_tdp * (7/10) * utilization
  idle_power + dynamic_power

/-- `calculate_energy` of `EnergyEfficiencyAnalyzer`:
`energy = power * time` with `time = workload_size / performance`. -/
def calculate_energy (c : ProcessorConfig) (workload_size : ℚ) :
    Except PyErr ℚ := do
  let perf ← calculate_performance c workload_size
  let time_seconds ← pyDivQ workload_size perf
  let power := calculate_power c 1
  pure (power * time_seconds)

/-- `calculate_energy_efficiency` of `EnergyEfficiencyAnalyzer`:
`workload_size / energy` with no guard on a zero energy. -/
def calculate_energy_efficiency (c : ProcessorConfig) (workload_size : ℚ) :
    Except PyErr ℚ := do
  let energy ← calculate_energy c workload_size
  pyDivQ workload_size energy

end EE

/-- Modelled from the spec: the value-coercion policy of section 4.1 as the
spec words it — attempt the integer parse only when the token contains no
decimal point and no exponent marker; otherwise attempt the float parse;
store the raw string on total failure.  Used only to compare the claimed
policy with `ILP.coerceValue`, the one implemented by the code. -/
def specValueCoerce (s : String) : Value :=
  if containsChar s.toList '.' ∨ containsChar s.toList 'e' ∨ containsChar s.toList 'E' then
    match pyFloat? s with
    | some f => .float f
    | none => .str s
  else
    match pyInt? s with
    | some n => .int n
    | none =>
      match pyFloat? s with
      | some f => .float f
      | none => .str s

/-- A file system with no files. -/
def emptyFS : String → Option String := fun _ => none

/-- A file system whose every file holds a stat line whose value token
matches the dotted capture class but fails `float`. -/
def badCaptureFS : String → Option String := fun _ => some "sim_seconds .."

lemma lookupKV_insert_self {α : Type} (st : List (String × α)) (k : String) (v : α) :
    lookupKV (insertKV st k v) k = some v := by
  induction st with
  | nil => simp [insertKV, lookupKV]
  | cons p rest ih =>
    obtain ⟨k', w⟩ := p
    by_cases h : k' = k
    · simp [insertKV, h, lookupKV]
    · simp [insertKV, h, lookupKV, ih]

lemma lookupKV_insert_ne {α : Type} (st : List (String × α)) {k k' : String} (v : α)
    (h : k' ≠ k) : lookupKV (insertKV st k' v) k = lookupKV st k := by
  induction st with
  | nil => simp [insertKV, lookupKV, h]
  | cons p rest ih =>
    obtain ⟨k0, w⟩ := p
    by_cases h0 : k0 = k'
    · subst h0
      simp [insertKV, lookupKV, h]
    · by_cases h1 : k0 = k
      · subst h1
        simp [insertKV, h0, lookupKV]
      · simp [insertKV, h0, lookupKV, h1, ih]

lemma lookupKV_insert_isSome {α : Type} (st : List (String × α)) (k k' : String)
    (v : α) (h : (lookupKV st k).isSome = true) :
    (lookupKV (insertKV st k' v) k).isSome = true := by
  by_cases he : k' = k
  · subst he
    simp [lookupKV_insert_self]
  · rwa [lookupKV_insert_ne st v he]

lemma lookupKV_mem {α : Type} {st : List (String × α)} {k : String} {v : α}
    (h : lookupKV st k = some v) : (k, v) ∈ st := by
  induction st with
  | nil => simp [lookupKV] at h
  | cons p rest ih =>
    obtain ⟨k0, w⟩ := p
    by_cases h0 : k0 = k
    · subst h0
      simp [lookupKV] at h
      simp [h]
    · simp [lookupKV, h0] at h
      exact List.mem_cons_of_mem _ (ih h)

lemma insertKV_notMem {α : Type} (st : List (String × α)) (k : String) (v : α)
    (h : k ∉ st.map Prod.fst) : insertKV st k v = st ++ [(k, v)] := by
  induction st with
  | nil => simp [insertKV]
  | cons p rest ih =>
    obtain ⟨k0, w⟩ := p
    simp only [List.map_cons, List.mem_cons] at h
    push_neg at h
    simp [insertKV, Ne.symm h.1, ih h.2]

lemma foldl_preserve {σ β : Type} (step : σ → β → σ) (P : σ → Prop)
    (hstep : ∀ s b, P s → P (step s b)) :
    ∀ (ls : List β) (s : σ), P s → P (List.foldl step s ls) := by
  intro ls
  induction ls with
  | nil => intro s h; exact h
  | cons b bs ih => intro s h; exact ih (step s b) (hstep s b h)

lemma tokAux_allWs (cs : List Char) (h : cs.all isWs = true) :
    tokAux [] cs = [] := by
  induction cs with
  | nil => simp [tokAux]
  | cons c cs ih =>
    simp only [List.all_cons, Bool.and_eq_true] at h
    simp [tokAux, h.1, ih h.2]

lemma allWs_false_of_tokens {cs : List Char} {t : List Char} {ts : List (List Char)}
    (h : tokensOf cs = t :: ts) : cs.all isWs = false := by
  by_contra hc
  rw [Bool.not_eq_false] at hc
  rw [tokensOf, tokAux_allWs cs hc] at h
  exact List.noConfusion h

lemma takeWhile_of_all {p : Char → Bool} {cs : List Char} (h : cs.all p = true) :
    cs.takeWhile p = cs ∧ cs.dropWhile p = [] := by
  induction cs with
  | nil => simp
  | cons c cs ih =>
    simp only [List.all_cons, Bool.and_eq_true] at h
    simp [List.takeWhile_cons, List.dropWhile_cons, h.1, (ih h.2).1, (ih h.2).2]

lemma mem_takeWhile {p : Char → Bool} :
    ∀ {cs : List Char} {c : Char}, c ∈ cs.takeWhile p → p c = true := by
  intro cs
  induction cs with
  | nil => intro c h; simp at h
  | cons d cs ih =>
    intro c h
    rw [List.takeWhile_cons] at h
    by_cases hd : p d
    · simp [hd] at h
      rcases h with h | h
      · rwa [h]
      · exact ih h
    · simp [hd] at h

lemma not_containsChar_dot_of_digits {cs : List Char} (h : cs.all isDig = true) :
    containsChar cs '.' = false := by
  induction cs with
  | nil => rfl
  | cons c cs ih =>
    simp only [List.all_cons, Bool.and_eq_true] at h
    have hc : decide (c = '.') = false := by
      rcases Classical.em (c = '.') with he | he
      · subst he
        exact absurd h.1 (by decide)
      · simp [he]
    simp [containsChar, hc, ih h.2]

lemma digitsVal?_some {cs : List Char} {n : ℕ} (h : digitsVal? cs = some n) :
    cs ≠ [] ∧ cs.all isDig = true ∧ n = digitsToNat cs := by
  unfold digitsVal? at h
  split at h
  · rename_i hc
    exact ⟨hc.1, hc.2, (Option.some.injEq _ _).mp h.symm |>.symm ▸ rfl⟩
  · exact absurd h (by simp)

lemma pyInt?_not_dot {s : String} {n : ℤ} (h : pyInt? s = some n) :
    containsChar s.toList '.' = false := by
  unfold pyInt? at h
  split at h
  · rename_i r heq
    rw [heq]
    split at h
    · rename_i m hm
      obtain ⟨_, hdig, _⟩ := digitsVal?_some hm
      simp [containsChar, not_containsChar_dot_of_digits hdig]
    · exact absurd h (by simp)
  · rename_i r heq
    rw [heq]
    split at h
    · rename_i m hm
      obtain ⟨_, hdig, _⟩ := digitsVal?_some hm
      simp [containsChar, not_containsChar_dot_of_digits hdig]
    · exact absurd h (by simp)
  · rename_i heq
    split at h
    · rename_i m hm
      obtain ⟨_, hdig, _⟩ := digitsVal?_some hm
      exact not_containsChar_dot_of_digits hdig
    · exact absurd h (by simp)

lemma lowAscii_of_digit {c : Char} (h : isDig c = true) : lowAscii c = c := by
  unfold lowAscii
  split
  · rename_i he
    subst he
    exact absurd h (by decide)
  · split
    · rename_i he
      subst he
      exact absurd h (by decide)
    · split
      · rename_i he
        subst he
        exact absurd h (by decide)
      · split
        · rename_i he
          subst he
          exact absurd h (by decide)
        · split
          · rename_i he
            subst he
            exact absurd h (by decide)
          · rfl

lemma nameEq_digits_false {cs lit : List Char} {c0 : Char} (hne : cs ≠ [])
    (hd : cs.all isDig = true) (h0 : isDig c0 = false) :
    nameEq cs (c0 :: lit) = false := by
  rcases cs with _ | ⟨c, cs'⟩
  · exact absurd rfl hne
  · simp only [List.all_cons, Bool.and_eq_true] at hd
    unfold nameEq
    simp only [List.map_cons, lowAscii_of_digit hd.1]
    rcases Classical.em (c = c0) with he | he
    · subst he
      rw [h0] at hd
      exact absurd hd.1 (by simp)
    · simp [he]

lemma parseUnsigned_digits {cs : List Char} (hne : cs ≠ [])
    (hd : cs.all isDig = true) : parseUnsigned cs = some (digitsToNat cs) := by
  obtain ⟨ht, hdr⟩ := takeWhile_of_all hd
  unfold parseUnsigned
  rw [ht, hdr]
  simp only [hne, if_false]
  unfold decVal
  simp [digitsToNat]

lemma pyFloatCore_digits {cs : List Char} (hne : cs ≠ [])
    (hd : cs.all isDig = true) :
    pyFloatCore cs false = some (.finite (digitsToNat cs)) := by
  unfold pyFloatCore
  rw [nameEq_digits_false hne hd (by decide), nameEq_digits_false hne hd (by decide),
    nameEq_digits_false hne hd (by decide)]
  simp [parseUnsigned_digits hne hd]

lemma toList_mk (cs : List Char) : (String.mk cs).toList = cs := rfl

lemma head_not_sign_of_digits {c : Char} {cs' : List Char}
    (hd : (c :: cs').all isDig = true) : c ≠ '+' ∧ c ≠ '-' := by
  simp only [List.all_cons, Bool.and_eq_true] at hd
  constructor
  · intro he
    subst he
    exact absurd hd.1 (by decide)
  · intro he
    subst he
    exact absurd hd.1 (by decide)

lemma pyFloat?_digits {cs : List Char} (hne : cs ≠ [])
    (hd : cs.all isDig = true) :
    pyFloat? (String.mk cs) = some (.finite (digitsToNat cs)) := by
  rcases cs with _ | ⟨c, cs'⟩
  · exact absurd rfl hne
  · obtain ⟨h1, h2⟩ := head_not_sign_of_digits hd
    unfold pyFloat?
    rw [toList_mk]
    split
    · rename_i r heq
      rw [List.cons.injEq] at heq
      exact absurd heq.1 h1
    · rename_i r heq
      rw [List.cons.injEq] at heq
      exact absurd heq.1 h2
    · exact pyFloatCore_digits hne hd

lemma pyInt?_digits {cs : List Char} (hne : cs ≠ [])
    (hd : cs.all isDig = true) :
    pyInt? (String.mk cs) = some (digitsToNat cs) := by
  rcases cs with _ | ⟨c, cs'⟩
  · exact absurd rfl hne
  · obtain ⟨h1, h2⟩ := head_not_sign_of_digits hd
    unfold pyInt?
    rw [toList_mk]
    split
    · rename_i r heq
      rw [List.cons.injEq] at heq
      exact absurd heq.1 h1
    · rename_i r heq
      rw [List.cons.injEq] at heq
      exact absurd heq.1 h2
    · unfold digitsVal?
      simp [hne, hd]

lemma toPF_of_valQ {v : Value} {q : ℚ} (h : valQ? v = some q) :
    toPF v = some (.finite q) := by
  rcases v with n | f | s
  · unfold valQ? at h
    rw [Option.some.injEq] at h
    simp [toPF, h]
  · rcases f with qf | b | _ <;> unfold valQ? at h <;> simp_all [toPF]
  · simp [valQ?] at h

lemma truthy_of_valQ_ne {v : Value} {q : ℚ} (h : valQ? v = some q) (hq : q ≠ 0) :
    truthy v = true := by
  rcases v with n | f | s
  · unfold valQ? at h
    rw [Option.some.injEq] at h
    have : n ≠ 0 := by
      intro he
      apply hq
      rw [← h, he]
      norm_num
    simp [truthy, this]
  · rcases f with qf | b | _ <;> unfold valQ? at h <;> simp_all [truthy]
  · simp [valQ?] at h

lemma pyDiv_finite {a b : Value} {x y : ℚ} (ha : valQ? a = some x)
    (hb : valQ? b = some y) (hy : y ≠ 0) :
    pyDiv a b = .ok (.finite (x / y)) := by
  unfold pyDiv
  rw [toPF_of_valQ ha, toPF_of_valQ hb]
  simp [pfDiv, hy]

lemma valQ?_isSome_cases {v : Value} (h : isFiniteNum v = true) :
    ∃ q, valQ? v = some q := by
  unfold isFiniteNum at h
  exact Option.isSome_iff_exists.mp h

lemma getKV_finite {st : List (String × Value)} {k : String} {d : Value}
    (hst : ∀ p ∈ st, isFiniteNum p.2 = true) (hd : isFiniteNum d = true) :
    isFiniteNum (getKV st k d) = true := by
  unfold getKV
  rcases hl : lookupKV st k with _ | v
  · simpa using hd
  · have := hst (k, v) (lookupKV_mem hl)
    simpa using this

lemma pyGtZero_finite {v : Value} (h : isFiniteNum v = true) :
    ∃ b, pyGtZero v = .ok b ∧ (b = true → ∃ q, valQ? v = some q ∧ 0 < q) := by
  obtain ⟨q, hq⟩ := valQ?_isSome_cases h
  rcases v with n | f | s
  · unfold valQ? at hq
    rw [Option.some.injEq] at hq
    refine ⟨decide (0 < n), rfl, ?_⟩
    intro hb
    rw [decide_eq_true_eq] at hb
    exact ⟨q, by simp [valQ?, hq], by rw [← hq]; exact_mod_cast hb⟩
  · rcases f with qf | b | _
    · refine ⟨decide (0 < qf), rfl, ?_⟩
      intro hb
      rw [decide_eq_true_eq] at hb
      exact ⟨qf, rfl, hb⟩
    · simp [valQ?] at hq
    · simp [valQ?] at hq
  · simp [valQ?] at hq

lemma pySub_finite {a b : Value} {x y : ℚ} (ha : valQ? a = some x)
    (hb : valQ? b = some y) :
    ∃ d, pySub a b = .ok d ∧ valQ? d = some (x - y) := by
  rcases a with n | f | s
  · rcases b with m | g | t
    · unfold valQ? at ha hb
      rw [Option.some.injEq] at ha hb
      refine ⟨.int (n - m), rfl, ?_⟩
      unfold valQ?
      rw [← ha, ← hb]
      push_cast
      rfl
    · refine ⟨.float (pfSub (.finite (n : ℚ)) g), ?_, ?_⟩
      · simp [pySub, toPF, toPF_of_valQ hb]
      · have : toPF (Value.float g) = some (.finite y) := toPF_of_valQ hb
        unfold toPF at this
        rw [Option.some.injEq] at this
        unfold valQ? at ha
        rw [Option.some.injEq] at ha
        rw [this]
        simp [pfSub, valQ?, ha]
    · simp [valQ?] at hb
  · rcases b with m | g | t
    · have hf : toPF (Value.float f) = some (.finite x) := toPF_of_valQ ha
      unfold toPF at hf
      rw [Option.some.injEq] at hf
      unfold valQ? at hb
      rw [Option.some.injEq] at hb
      refine ⟨.float (pfSub f (.finite (m : ℚ))), by simp [pySub, toPF], ?_⟩
      rw [hf]
      simp [pfSub, valQ?, hb]
    · have hf : toPF (Value.float f) = some (.finite x) := toPF_of_valQ ha
      have hg : toPF (Value.float g) = some (.finite y) := toPF_of_valQ hb
      unfold toPF at hf hg
      rw [Option.some.injEq] at hf hg
      refine ⟨.float (pfSub f g), by simp [pySub, toPF], ?_⟩
      rw [hf, hg]
      simp [pfSub, valQ?]
    · simp [valQ?] at hb
  · simp [valQ?] at ha

lemma pyMul_float_int {f : PyFloat} {x : ℚ} (hf : f = .finite x) (n : ℤ) :
    pyMul (.float f) (.int n) = .ok (.float (.finite (x * n))) := by
  subst hf
  simp [pyMul, toPF, pfMul]

lemma ilp_parseStep_insert {st : List (String × Value)} {line : String}
    {k v : List Char} {ts : List (List Char)}
    (hh : startsHash line.toList = false)
    (ht : tokensOf line.toList = k :: v :: ts) :
    ILP.parseStep st line = insertKV st (String.mk k) (ILP.coerceValue (String.mk v)) := by
  have hw := allWs_false_of_tokens ht
  have hh' : startsHash line.data = false := hh
  have ht' : tokensOf line.data = k :: v :: ts := ht
  have hwP : ¬ (∀ x ∈ line.data, isWs x = true) := by
    rw [← List.all_eq_true]
    simp [show line.data.all isWs = false from hw]
  simp [ILP.parseStep, hh', hwP, ht']

lemma ilp_parseStep_short {st : List (String × Value)} {line : String}
    (hlen : (tokensOf line.toList).length < 2) : ILP.parseStep st line = st := by
  unfold ILP.parseStep
  split
  · rfl
  · split
    · rename_i k v ts heq
      rw [heq] at hlen
      simp at hlen
      omega
    · rfl

lemma ilp_parseStep_preserve (k : String) (st : List (String × Value)) (line : String)
    (h : (lookupKV st k).isSome = true) :
    (lookupKV (ILP.parseStep st line) k).isSome = true := by
  unfold ILP.parseStep
  split
  · exact h
  · split
    · exact lookupKV_insert_isSome st k _ _ h
    · exact h

lemma dlp_parseStep_insert {st : List (String × Value)} {line : String}
    {k v : List Char} {ts : List (List Char)}
    (hc : containsColons line.toList = true)
    (hh : startsHash line.toList = false)
    (ht : tokensOf line.toList = k :: v :: ts) :
    DLP.parseStep st line = insertKV st (String.mk k) (DLP.coerceValue (String.mk v)) := by
  have hc' : containsColons line.data = true := hc
  have hh' : startsHash line.data = false := hh
  have ht' : tokensOf line.data = k :: v :: ts := ht
  simp [DLP.parseStep, hc', hh', ht']

lemma dlp_parseStep_short {st : List (String × Value)} {line : String}
    (hlen : (tokensOf line.toList).length < 2) : DLP.parseStep st line = st := by
  unfold DLP.parseStep
  split
  · split
    · rename_i k v ts heq
      rw [heq] at hlen
      simp at hlen
      omega
    · rfl
  · rfl

lemma dlp_parseStep_preserve (k : String) (st : List (String × Value)) (line : String)
    (h : (lookupKV st k).isSome = true) :
    (lookupKV (DLP.parseStep st line) k).isSome = true := by
  unfold DLP.parseStep
  split
  · split
    · exact lookupKV_insert_isSome st k _ _ h
    · exact h
  · exact h

lemma ilp_parse_lines_append (pre post : List String) (line : String) :
    ILP.parse_lines (pre ++ line :: post) =
      List.foldl ILP.parseStep (ILP.parseStep (ILP.parse_lines pre) line) post := by
  unfold ILP.parse_lines
  rw [List.foldl_append]
  rfl

lemma dlp_parse_lines_append (pre post : List String) (line : String) :
    DLP.parse_lines (pre ++ line :: post) =
      List.foldl DLP.parseStep (DLP.parseStep (DLP.parse_lines pre) line) post := by
  unfold DLP.parse_lines
  rw [List.foldl_append]
  rfl

/-- C2 (code bug): on a report whose dcache accesses counter is present
with value 0, `extract_key_metrics` of `parse_gem_stat.py` divides by that
zero and raises `ZeroDivisionError` — the `.get(key, 1)` default only
covers an absent key, not a present zero, so the claimed
never-a-division-error behaviour fails. -/
theorem c2_zero_denominator_division_fault :
    DLP.extract_key_metrics
      (DLP.parse_lines ["system.cpu.dcache.overallAccesses::total 0"]) =
      .error .zeroDivision := by decide

/-- C1 (counterexample): the ILP parser decides on the decimal point alone,
so the exponent-marker token `1e5` is sent to the integer parse, fails, and
is stored as the raw string, while the spec's coercion policy would store
the float 100000.0. -/
theorem c1_counterexample :
    ILP.parse_lines ["foo 1e5"] = [("foo", Value.str "1e5")]
    ∧ specValueCoerce "1e5" = Value.float (PyFloat.finite 100000)
    ∧ Value.str "1e5" ≠ Value.float (PyFloat.finite 100000) := by decide

/-- C3 (counterexample): `sim_seconds 0.001` is a non-empty, non-comment,
two-token line, yet the DLP parser produces no entry for it because the
line does not contain `::`. -/
theorem c3_counterexample :
    startsHash "sim_seconds 0.001".toList = false
    ∧ (tokensOf "sim_seconds 0.001".toList).length = 2
    ∧ DLP.parse_lines ["sim_seconds 0.001"] = [] := by decide

/-- C5 (counterexample): a report whose dcache miss rate token is `2.5`
yields the derived hit rate `1 − 2.5 = −1.5`, outside `[0, 1]`. -/
theorem c5_counterexample :
    (RP.parse_content "system.cpu.dcache.overallMissRate::total 2.5").bind
        (fun m => lookupKV m "dcache_hit_rate") = some (-(3/2) : ℚ)
    ∧ ¬ (0 ≤ (-(3/2) : ℚ)) := by decide

/-- C6 (counterexample): `calculate_energy_efficiency` divides with no
zero-denominator guard; at workload size 0 the derivation chain raises
`ZeroDivisionError` instead of yielding a sentinel. -/
theorem c6_counterexample :
    EE.calculate_energy_efficiency EE.scalarCPU 0 = .error .zeroDivision := by decide

/-- C7 (counterexample): the DLP `parse_stats_file` opens the path with no
existence check, so a missing file raises `FileNotFoundError` instead of
reporting an empty result. -/
theorem c7_counterexample :
    DLP.parse_stats_file emptyFS "gem5_results/config_1/stats.txt" =
      .error .fileNotFound := rfl

/-- C10 (counterexample): with an existing, readable stats file whose
`sim_seconds` value token is `..`, the capture matches the `[\d.]+` class
but fails `float`, and `parse_stats_file` returns `None` rather than the
thirteen-key mapping. -/
theorem c10_counterexample :
    RP.parse_stats_file badCaptureFS "results/m5out_low_power/stats.txt" = none := by
  decide

/-- C7 (amended): for every missing input path, the ILP parser returns the
empty stats mapping and the Residency parser returns `None`, both without
raising; the DLP parser instead raises `FileNotFoundError`, so only the
former two report the error to the caller as the claim states. -/
theorem c7_missing_file_amended :
    ∀ (fs : String → Option String) (path : String), fs path = none →
      ILP.parse_stats_file fs path = []
      ∧ RP.parse_stats_file fs path = none
      ∧ DLP.parse_stats_file fs path = .error .fileNotFound := by
  intro fs path h
  refine ⟨?_, ?_, ?_⟩ <;>
    simp [ILP.parse_stats_file, RP.parse_stats_file, DLP.parse_stats_file, h]

/-- Witness for C7 at the empty file system. -/
theorem c7_witness :
    ILP.parse_stats_file emptyFS "m5out/stats.txt" = []
    ∧ RP.parse_stats_file emptyFS "m5out/stats.txt" = none
    ∧ DLP.parse_stats_file emptyFS "m5out/stats.txt" = .error .fileNotFound :=
  c7_missing_file_amended emptyFS "m5out/stats.txt" rfl

/-- C1 (amended): the ILP parser attempts the integer parse exactly when
the token contains no decimal point — exponent markers are not considered,
and a dot-free token that fails the integer parse is stored as the raw
string with no floating-point attempt.  Every token accepted by the
integer parse (in particular every purely integer literal) is stored as an
integer of equal value; the DLP parser, which only ever attempts float
parses, stores an equal float for such tokens. -/
theorem c1_coercion_amended :
    (∀ (s : String) (n : ℤ), pyInt? s = some n → ILP.coerceValue s = Value.int n)
    ∧ (∀ s : String, containsChar s.toList '.' = false → pyInt? s = none →
        ILP.coerceValue s = Value.str s)
    ∧ (∀ (st : List (String × Value)) (line : String) (k v : List Char)
        (ts : List (List Char)) (n : ℤ),
        startsHash line.toList = false →
        tokensOf line.toList = k :: v :: ts →
        pyInt? (String.mk v) = some n →
        lookupKV (ILP.parseStep st line) (String.mk k) = some (Value.int n))
    ∧ (∀ cs : List Char, cs ≠ [] → cs.all isDig = true →
        DLP.coerceValue (String.mk cs) = Value.float (PyFloat.finite (digitsToNat cs))
        ∧ pyInt? (String.mk cs) = some (digitsToNat cs)) := by
  refine ⟨?_, ?_, ?_, ?_⟩
  · intro s n h
    have h' : containsChar s.data '.' = false := pyInt?_not_dot h
    simp [ILP.coerceValue, h', h]
  · intro s h1 h2
    have h1' : containsChar s.data '.' = false := h1
    simp [ILP.coerceValue, h1', h2]
  · intro st line k v ts n hh ht hi
    rw [ilp_parseStep_insert hh ht]
    have hc : ILP.coerceValue (String.mk v) = Value.int n := by
      have h' : containsChar v '.' = false := pyInt?_not_dot hi
      simp [ILP.coerceValue, h', hi]
    rw [hc, lookupKV_insert_self]
  · intro cs hne hd
    constructor
    · simp [DLP.coerceValue, pyFloat?_digits hne hd]
    · exact pyInt?_digits hne hd

/-- Witness for C1: the integer token `42` is stored as the integer 42 by
the ILP parser and as the float 42.0 by the DLP parser, while `1e5` falls
back to raw-string storage in the ILP parser. -/
theorem c1_witness :
    ILP.coerceValue "42" = Value.int 42
    ∧ ILP.coerceValue "1e5" = Value.str "1e5"
    ∧ lookupKV (ILP.parseStep [] "foo 42") (String.mk ['f', 'o', 'o']) =
        some (Value.int 42)
    ∧ DLP.coerceValue (String.mk ['4', '2']) =
        Value.float (PyFloat.finite (digitsToNat ['4', '2'])) :=
  ⟨c1_coercion_amended.1 "42" 42 (by decide),
   c1_coercion_amended.2.1 "1e5" (by decide) (by decide),
   c1_coercion_amended.2.2.1 [] "foo 42" ['f', 'o', 'o'] ['4', '2'] [] 42
     (by decide) (by decide) (by decide),
   (c1_coercion_amended.2.2.2 ['4', '2'] (by decide) (by decide)).1⟩

/-- C3 (amended): in the ILP parser every non-comment line with at least
two whitespace tokens produces an entry keyed by its first token, and
every line with fewer than two tokens is skipped leaving the mapping
unchanged, with no error possible; the DLP parser behaves the same way
only for lines that additionally contain `::` — both its skip of short
lines and its extra `::` requirement leave the mapping unchanged. -/
theorem c3_line_handling_amended :
    (∀ (pre post : List String) (line : String) (k v : List Char)
        (ts : List (List Char)),
        startsHash line.toList = false →
        tokensOf line.toList = k :: v :: ts →
        (lookupKV (ILP.parse_lines (pre ++ line :: post)) (String.mk k)).isSome = true)
    ∧ (∀ (st : List (String × Value)) (line : String),
        (tokensOf line.toList).length < 2 → ILP.parseStep st line = st)
    ∧ (∀ (st : List (String × Value)) (line : String),
        (tokensOf line.toList).length < 2 → DLP.parseStep st line = st)
    ∧ (∀ (pre post : List String) (line : String) (k v : List Char)
        (ts : List (List Char)),
        containsColons line.toList = true →
        startsHash line.toList = false →
        tokensOf line.toList = k :: v :: ts →
        (lookupKV (DLP.parse_lines (pre ++ line :: post)) (String.mk k)).isSome = true) := by
  refine ⟨?_, ?_, ?_, ?_⟩
  · intro pre post line k v ts hh ht
    rw [ilp_parse_lines_append]
    apply foldl_preserve ILP.parseStep
      (fun st => (lookupKV st (String.mk k)).isSome = true)
      (fun s b hb => ilp_parseStep_preserve _ s b hb)
    rw [ilp_parseStep_insert hh ht, lookupKV_insert_self]
    rfl
  · intro st line h
    exact ilp_parseStep_short h
  · intro st line h
    exact dlp_parseStep_short h
  · intro pre post line k v ts hc hh ht
    rw [dlp_parse_lines_append]
    apply foldl_preserve DLP.parseStep
      (fun st => (lookupKV st (String.mk k)).isSome = true)
      (fun s b hb => dlp_parseStep_preserve _ s b hb)
    rw [dlp_parseStep_insert hc hh ht, lookupKV_insert_self]
    rfl

/-- Witness for C3 on concrete reports. -/
theorem c3_witness :
    (lookupKV (ILP.parse_lines (["# h"] ++ "a 1" :: ["b 2.5"]))
        (String.mk ['a'])).isSome = true
    ∧ ILP.parseStep [] "solo" = []
    ∧ DLP.parseStep [] "solo" = []
    ∧ (lookupKV (DLP.parse_lines ([] ++ "x::y 7" :: []))
        (String.mk ['x', ':', ':', 'y'])).isSome = true :=
  ⟨c3_line_handling_amended.1 ["# h"] ["b 2.5"] "a 1" ['a'] ['1'] []
     (by decide) (by decide),
   c3_line_handling_amended.2.1 [] "solo" (by decide),
   c3_line_handling_amended.2.2.1 [] "solo" (by decide),
   c3_line_handling_amended.2.2.2 [] [] "x::y 7" ['x', ':', ':', 'y'] ['7'] []
     (by decide) (by decide) (by decide)⟩

/-- C8 (confirmed): both parsers are total — the DLP file wrapper's only
error is the missing file — parsing decomposes line by line so later lines
are still processed, and a line whose value token fails every attempted
numeric parse stores the raw string token under the line's key. -/
theorem c8_malformed_line_degrades :
    (∀ (pre post : List String) (line : String),
        ILP.parse_lines (pre ++ line :: post) =
          List.foldl ILP.parseStep (ILP.parseStep (ILP.parse_lines pre) line) post)
    ∧ (∀ (st : List (String × Value)) (line : String) (k v : List Char)
        (ts : List (List Char)),
        startsHash line.toList = false →
        tokensOf line.toList = k :: v :: ts →
        pyInt? (String.mk v) = none → pyFloat? (String.mk v) = none →
        lookupKV (ILP.parseStep st line) (String.mk k) =
          some (Value.str (String.mk v)))
    ∧ (∀ (pre post : List String) (line : String),
        DLP.parse_lines (pre ++ line :: post) =
          List.foldl DLP.parseStep (DLP.parseStep (DLP.parse_lines pre) line) post)
    ∧ (∀ (st : List (String × Value)) (line : String) (k v : List Char)
        (ts : List (List Char)),
        containsColons line.toList = true →
        startsHash line.toList = false →
        tokensOf line.toList = k :: v :: ts →
        pyFloat? (String.mk v) = none →
        lookupKV (DLP.parseStep st line) (String.mk k) =
          some (Value.str (String.mk v)))
    ∧ (∀ (fs : String → Option String) (path content : String),
        fs path = some content →
        DLP.parse_stats_file fs path = .ok (DLP.parse_lines (linesOf content))) := by
  refine ⟨?_, ?_, ?_, ?_, ?_⟩
  · intro pre post line
    exact ilp_parse_lines_append pre post line
  · intro st line k v ts hh ht hi hf
    rw [ilp_parseStep_insert hh ht]
    have hc : ILP.coerceValue (String.mk v) = Value.str (String.mk v) := by
      by_cases hd : containsChar v '.' = true
      · simp [ILP.coerceValue, hd, hf]
      · have hd' : containsChar v '.' = false := by
          rwa [Bool.not_eq_true] at hd
        simp [ILP.coerceValue, hd', hi]
    rw [hc, lookupKV_insert_self]
  · intro pre post line
    exact dlp_parse_lines_append pre post line
  · intro st line k v ts hc hh ht hf
    rw [dlp_parseStep_insert hc hh ht]
    have hv : DLP.coerceValue (String.mk v) = Value.str (String.mk v) := by
      simp [DLP.coerceValue, hf]
    rw [hv, lookupKV_insert_self]
  · intro fs path content h
    simp [DLP.parse_stats_file, h]

/-- Witness for C8: the malformed tokens `abc` and `x::z` degrade to string
storage while later lines still parse. -/
theorem c8_witness :
    ILP.parse_lines (["a 1"] ++ "b abc" :: ["c 2"]) =
      List.foldl ILP.parseStep (ILP.parseStep (ILP.parse_lines ["a 1"]) "b abc") ["c 2"]
    ∧ lookupKV (ILP.parseStep [] "b abc") (String.mk ['b']) =
        some (Value.str (String.mk ['a', 'b', 'c']))
    ∧ lookupKV (DLP.parseStep [] "q::r x::z") (String.mk ['q', ':', ':', 'r']) =
        some (Value.str (String.mk ['x', ':', ':', 'z']))
    ∧ DLP.parse_stats_file (fun _ => some "q::r 1") "stats.txt" =
        .ok (DLP.parse_lines (linesOf "q::r 1")) :=
  ⟨c8_malformed_line_degrades.1 ["a 1"] ["c 2"] "b abc",
   c8_malformed_line_degrades.2.1 [] "b abc" ['b'] ['a', 'b', 'c'] []
     (by decide) (by decide) (by decide) (by decide),
   c8_malformed_line_degrades.2.2.2.1 [] "q::r x::z" ['q', ':', ':', 'r']
     ['x', ':', ':', 'z'] [] (by decide) (by decide) (by decide) (by decide),
   c8_malformed_line_degrades.2.2.2.2 (fun _ => some "q::r 1") "stats.txt"
     "q::r 1" rfl⟩

lemma addHitRates_other (m : List (String × ℚ)) {k : String}
    (h1 : k ≠ "icache_hit_rate") (h2 : k ≠ "dcache_hit_rate")
    (h3 : k ≠ "l2cache_hit_rate") :
    lookupKV (RP.addHitRates m) k = lookupKV m k := by
  unfold RP.addHitRates
  rw [lookupKV_insert_ne _ _ (Ne.symm h3), lookupKV_insert_ne _ _ (Ne.symm h2),
    lookupKV_insert_ne _ _ (Ne.symm h1)]

lemma addHitRates_icache (m : List (String × ℚ)) :
    lookupKV (RP.addHitRates m) "icache_hit_rate" =
      some (1 - getKV m "icache_miss_rate" 0) := by
  unfold RP.addHitRates
  rw [lookupKV_insert_ne _ _ (by decide), lookupKV_insert_ne _ _ (by decide),
    lookupKV_insert_self]

lemma addHitRates_dcache (m : List (String × ℚ)) :
    lookupKV (RP.addHitRates m) "dcache_hit_rate" =
      some (1 - getKV m "dcache_miss_rate" 0) := by
  unfold RP.addHitRates
  rw [lookupKV_insert_ne _ _ (by decide), lookupKV_insert_self]
  unfold getKV
  rw [lookupKV_insert_ne _ _ (by decide)]

lemma addHitRates_l2 (m : List (String × ℚ)) :
    lookupKV (RP.addHitRates m) "l2cache_hit_rate" =
      some (1 - getKV m "l2cache_miss_rate" 0) := by
  unfold RP.addHitRates
  rw [lookupKV_insert_self]
  unfold getKV
  rw [lookupKV_insert_ne _ _ (by decide), lookupKV_insert_ne _ _ (by decide)]

/-- C9 (confirmed): in every successfully parsed report whose overall
miss-rate metric parses to 0.25, the derived hit rate for the same cache
equals exactly 0.75, since the code computes `1.0 - miss_rate` and both
values are exactly representable. -/
theorem c9_hit_rate_three_quarters :
    ∀ (content : String) (m : List (String × ℚ)),
      RP.parse_content content = some m →
      ((lookupKV m "dcache_miss_rate" = some (1/4) →
        lookupKV m "dcache_hit_rate" = some (3/4))
       ∧ (lookupKV m "icache_miss_rate" = some (1/4) →
          lookupKV m "icache_hit_rate" = some (3/4))
       ∧ (lookupKV m "l2cache_miss_rate" = some (1/4) →
          lookupKV m "l2cache_hit_rate" = some (3/4))) := by
  intro content m h
  unfold RP.parse_content at h
  split at h
  · exact absurd h (by simp)
  · rename_i m0 hm0
    rw [Option.some.injEq] at h
    subst h
    refine ⟨?_, ?_, ?_⟩
    · intro hd
      rw [addHitRates_other m0 (by decide) (by decide) (by decide)] at hd
      rw [addHitRates_dcache m0]
      unfold getKV
      rw [hd]
      norm_num
    · intro hd
      rw [addHitRates_other m0 (by decide) (by decide) (by decide)] at hd
      rw [addHitRates_icache m0]
      unfold getKV
      rw [hd]
      norm_num
    · intro hd
      rw [addHitRates_other m0 (by decide) (by decide) (by decide)] at hd
      rw [addHitRates_l2 m0]
      unfold getKV
      rw [hd]
      norm_num

/-- Witness for C9: a concrete report with dcache miss rate 0.25 derives
hit rate 0.75. -/
theorem c9_witness :
    lookupKV
      [("sim_seconds", (0 : ℚ)), ("sim_insts", 0), ("ipc", 0), ("num_cycles", 0),
       ("icache_miss_rate", 0), ("dcache_miss_rate", 1/4), ("l2cache_miss_rate", 0),
       ("icache_misses", 0), ("dcache_misses", 0), ("l2cache_misses", 0),
       ("icache_hit_rate", 1), ("dcache_hit_rate", 3/4), ("l2cache_hit_rate", 1)]
      "dcache_hit_rate" = some (3/4) :=
  (c9_hit_rate_three_quarters "system.cpu.dcache.overallMissRate::total 0.25"
    [("sim_seconds", (0 : ℚ)), ("sim_insts", 0), ("ipc", 0), ("num_cycles", 0),
     ("icache_miss_rate", 0), ("dcache_miss_rate", 1/4), ("l2cache_miss_rate", 0),
     ("icache_misses", 0), ("dcache_misses", 0), ("l2cache_misses", 0),
     ("icache_hit_rate", 1), ("dcache_hit_rate", 3/4), ("l2cache_hit_rate", 1)]
    (by decide)).1 (by decide)

lemma branchAccuracy_ok {stats : List (String × Value)}
    (r0 : List (String × Value))
    (hnum : ∀ p ∈ stats, isFiniteNum p.2 = true) :
    ∃ r, ILP.branchAccuracy stats r0 = .ok r
      ∧ ∀ k : String, k ≠ "branch_accuracy" → lookupKV r k = lookupKV r0 k := by
  have hbp : isFiniteNum
      (getKV stats "system.cpu.branchPred.condPredicted" (.int 0)) = true :=
    getKV_finite hnum (by decide)
  have hbi : isFiniteNum
      (getKV stats "system.cpu.branchPred.condIncorrect" (.int 0)) = true :=
    getKV_finite hnum (by decide)
  obtain ⟨b, hgt, hpos⟩ := pyGtZero_finite hbp
  obtain ⟨qbi, hqbi⟩ := valQ?_isSome_cases hbi
  rcases b with _ | _
  · refine ⟨r0, ?_, fun k _ => rfl⟩
    simp [ILP.branchAccuracy, hgt, Bind.bind, Except.bind, Pure.pure, Except.pure]
  · obtain ⟨qbp, hqbp, hqbp_pos⟩ := hpos rfl
    obtain ⟨d, hsub, hdval⟩ := pySub_finite hqbp hqbi
    have hdiv := pyDiv_finite hdval hqbp (ne_of_gt hqbp_pos)
    refine ⟨insertKV r0 "branch_accuracy"
        (.float (.finite ((qbp - qbi) / qbp * ((100 : ℤ) : ℚ)))), ?_, ?_⟩
    · simp [ILP.branchAccuracy, hgt, hsub, hdiv, pyMul_float_int rfl 100,
        Bind.bind, Except.bind, Pure.pure, Except.pure]
    · intro k hk
      exact lookupKV_insert_ne r0 _ (Ne.symm hk)

/-- C4 (confirmed): over finite-numeric reports, `analyze_experiment`
computes `ipc = instructions / cycles` and `cpi = cycles / instructions`
exactly when both operands are present and nonzero, and when either
operand is missing or zero (e.g. the report lacks `system.cpu.numCycles`)
it returns the empty results dict — the fields are omitted — raising no
exception. -/
theorem c4_ipc_cpi_derivation :
    (∀ (stats : List (String × Value)) (iv cv : Value) (qi qc : ℚ),
        (∀ p ∈ stats, isFiniteNum p.2 = true) →
        ILP.instsLookup stats = some iv → valQ? iv = some qi → qi ≠ 0 →
        lookupKV stats "system.cpu.numCycles" = some cv →
        valQ? cv = some qc → qc ≠ 0 →
        ∃ r, ILP.analyze_experiment stats = .ok (some r)
          ∧ lookupKV r "ipc" = some (Value.float (PyFloat.finite (qi / qc)))
          ∧ lookupKV r "cpi" = some (Value.float (PyFloat.finite (qc / qi))))
    ∧ (∀ stats : List (String × Value), stats ≠ [] →
        ((∀ iv, ILP.instsLookup stats = some iv → truthy iv = false)
          ∨ truthy (getKV stats "system.cpu.numCycles" (Value.int 0)) = false) →
        ILP.analyze_experiment stats = .ok (some [])
          ∧ lookupKV ([] : List (String × Value)) "ipc" = none) := by
  constructor
  · intro stats iv cv qi qc hnum hinsts hqi hqi0 hcy hqc hqc0
    have hne : stats ≠ [] := by
      intro he
      subst he
      simp [lookupKV] at hcy
    have hgetc : getKV stats "system.cpu.numCycles" (Value.int 0) = cv := by
      unfold getKV
      rw [hcy]
      rfl
    have htr1 := truthy_of_valQ_ne hqi hqi0
    have htr2 := truthy_of_valQ_ne hqc hqc0
    have hipc := pyDiv_finite hqi hqc hqc0
    have hcpi := pyDiv_finite hqc hqi hqi0
    obtain ⟨r, hr, hlk⟩ := branchAccuracy_ok (insertKV (insertKV (insertKV (insertKV []
        "instructions" iv) "cycles" cv) "ipc" (.float (.finite (qi / qc))))
        "cpi" (.float (.finite (qc / qi)))) hnum
    refine ⟨r, ?_, ?_, ?_⟩
    · simp [ILP.analyze_experiment, hne, hinsts, hgetc, htr1, htr2, hipc, hcpi, hr,
        Bind.bind, Except.bind, Pure.pure, Except.pure]
    · rw [hlk "ipc" (by decide), lookupKV_insert_ne _ _ (by decide),
        lookupKV_insert_self]
    · rw [hlk "cpi" (by decide), lookupKV_insert_self]
  · intro stats hne hfals
    refine ⟨?_, rfl⟩
    unfold ILP.analyze_experiment
    rw [if_neg hne]
    rcases hi : ILP.instsLookup stats with _ | iv
    · simp [hi]
    · rcases hfals with hf | hf
      · have hiv := hf iv hi
        simp [hi, hiv]
      · simp [hi, hf]

/-- Witness for C4: instructions 1000 and cycles 500 derive ipc exactly 2
and cpi exactly 0.5; a report lacking the cycle count yields the empty
results dict with no exception. -/
theorem c4_witness :
    (∃ r, ILP.analyze_experiment
        [("system.cpu.numInsts", Value.int 1000),
         ("system.cpu.numCycles", Value.int 500)] = .ok (some r)
      ∧ lookupKV r "ipc" = some (Value.float (PyFloat.finite ((1000 : ℚ) / 500)))
      ∧ lookupKV r "cpi" = some (Value.float (PyFloat.finite ((500 : ℚ) / 1000))))
    ∧ (1000 : ℚ) / 500 = 2
    ∧ ILP.analyze_experiment [("system.cpu.numInsts", Value.int 1000)] = .ok (some [])
    ∧ lookupKV ([] : List (String × Value)) "ipc" = none := by
  refine ⟨c4_ipc_cpi_derivation.1
      [("system.cpu.numInsts", Value.int 1000), ("system.cpu.numCycles", Value.int 500)]
      (Value.int 1000) (Value.int 500) 1000 500 (by decide) (by decide) (by decide)
      (by decide) (by decide) (by decide) (by decide), by norm_num, ?_, ?_⟩
  · exact (c4_ipc_cpi_derivation.2 [("system.cpu.numInsts", Value.int 1000)]
      (by decide) (Or.inr (by decide))).1
  · exact (c4_ipc_cpi_derivation.2 [("system.cpu.numInsts", Value.int 1000)]
      (by decide) (Or.inr (by decide))).2

lemma decVal_nonneg (ip fp : List Char) : 0 ≤ decVal ip fp := by
  unfold decVal
  positivity

lemma parseUnsigned_nonneg {cs : List Char} {q : ℚ}
    (h : parseUnsigned cs = some q) : 0 ≤ q := by
  unfold parseUnsigned at h
  split at h
  · split at h
    · exact absurd h (by simp)
    · split at h
      · rw [Option.some.injEq] at h
        subst h
        exact decVal_nonneg _ _
      · split at h
        · split at h
          · rw [Option.some.injEq] at h
            subst h
            exact mul_nonneg (decVal_nonneg _ _)
              (le_of_lt (zpow_pos (by norm_num) _))
          · exact absurd h (by simp)
        · exact absurd h (by simp)
  · split at h
    · exact absurd h (by simp)
    · rw [Option.some.injEq] at h
      subst h
      exact decVal_nonneg _ _
  · split at h
    · split at h
      · rw [Option.some.injEq] at h
        subst h
        exact mul_nonneg (decVal_nonneg _ _)
          (le_of_lt (zpow_pos (by norm_num) _))
      · exact absurd h (by simp)
    · exact absurd h (by simp)

lemma matchAt_class {lit : List Char} {dotted : Bool} {s cap : List Char}
    (h : matchAt lit dotted s = some cap) :
    cap ≠ [] ∧ ∀ c ∈ cap, capClass dotted c = true := by
  unfold matchAt at h
  split at h
  · exact absurd h (by simp)
  · split at h
    · exact absurd h (by simp)
    · split at h
      · exact absurd h (by simp)
      · rename_i hne
        rw [Option.some.injEq] at h
        subst h
        exact ⟨hne, fun c hc => mem_takeWhile hc⟩

lemma searchPat_class {lit : List Char} {dotted : Bool} :
    ∀ {s cap : List Char}, searchPat lit dotted s = some cap →
      cap ≠ [] ∧ ∀ c ∈ cap, capClass dotted c = true := by
  intro s
  induction s with
  | nil =>
    intro cap h
    unfold searchPat at h
    exact matchAt_class h
  | cons c rest ih =>
    intro cap h
    unfold searchPat at h
    split at h
    · rw [Option.some.injEq] at h
      subst h
      rename_i cap' hm
      exact matchAt_class hm
    · exact ih h

lemma capFloat?_nonneg {dotted : Bool} {cap : List Char} {q : ℚ} (hne : cap ≠ [])
    (hcl : ∀ c ∈ cap, capClass dotted c = true)
    (h : capFloat? cap = some q) : 0 ≤ q := by
  rcases cap with _ | ⟨c, cs'⟩
  · exact absurd rfl hne
  · have hc := hcl c (by simp)
    have h1 : c ≠ '+' := by
      intro he
      subst he
      rcases dotted with _ | _ <;> exact absurd hc (by decide)
    have h2 : c ≠ '-' := by
      intro he
      subst he
      rcases dotted with _ | _ <;> exact absurd hc (by decide)
    have hp : pyFloat? (String.mk (c :: cs')) = pyFloatCore (c :: cs') false := by
      unfold pyFloat?
      rw [toList_mk]
      split
      · rename_i r heq
        rw [List.cons.injEq] at heq
        exact absurd heq.1 h1
      · rename_i r heq
        rw [List.cons.injEq] at heq
        exact absurd heq.1 h2
      · rfl
    unfold capFloat? at h
    rw [hp] at h
    rcases hcore : pyFloatCore (c :: cs') false with _ | f
    · rw [hcore] at h
      simp at h
    · rw [hcore] at h
      rcases f with q0 | b | _
      · simp only [Option.some.injEq] at h
        subst h
        unfold pyFloatCore at hcore
        split at hcore
        · simp at hcore
        · split at hcore
          · simp at hcore
          · split at hcore
            · rename_i q1 hq1
              simp at hcore
              rw [← hcore]
              exact parseUnsigned_nonneg hq1
            · simp at hcore
      · simp at h
      · simp at h

lemma extractLoop_nonneg :
    ∀ (ps : List (String × List Char × Bool)) (c : List Char)
      (l : List (String × ℚ)),
      RP.extractLoop ps c = some l → ∀ kq ∈ l, 0 ≤ kq.2 := by
  intro ps
  induction ps with
  | nil =>
    intro c l h kq hm
    unfold RP.extractLoop at h
    rw [Option.some.injEq] at h
    subst h
    simp at hm
  | cons p ps ih =>
    intro c l h kq hm
    obtain ⟨k, lit, dotted⟩ := p
    unfold RP.extractLoop at h
    split at h
    · split at h
      · rename_i rest hrest
        rw [Option.some.injEq] at h
        subst h
        rcases List.mem_cons.mp hm with hm | hm
        · subst hm
          exact le_refl 0
        · exact ih c rest hrest kq hm
      · exact absurd h (by simp)
    · rename_i cap hcap
      split at h
      · exact absurd h (by simp)
      · rename_i q hq
        split at h
        · rename_i rest hrest
          rw [Option.some.injEq] at h
          subst h
          rcases List.mem_cons.mp hm with hm | hm
          · subst hm
            obtain ⟨hne, hcl⟩ := searchPat_class hcap
            exact capFloat?_nonneg hne hcl hq
          · exact ih c rest hrest kq hm
        · exact absurd h (by simp)

lemma extract_key_metrics_ok {stats : List (String × Value)} {r : DLP.KeyMetrics}
    (h : DLP.extract_key_metrics stats = .ok r) :
    ∃ dh ih,
      pyDiv (getKV stats "system.cpu.dcache.overallHits::total" (.int 0))
        (getKV stats "system.cpu.dcache.overallAccesses::total" (.int 1)) = .ok dh
      ∧ pyDiv (getKV stats "system.cpu.icache.overallHits::total" (.int 0))
          (getKV stats "system.cpu.icache.overallAccesses::total" (.int 1)) = .ok ih
      ∧ r.dcache_hit_rate = dh ∧ r.icache_hit_rate = ih := by
  unfold DLP.extract_key_metrics at h
  rcases h1 : pyDiv (getKV stats "system.cpu.dcache.overallHits::total" (.int 0))
      (getKV stats "system.cpu.dcache.overallAccesses::total" (.int 1)) with e | dh
  · rw [h1] at h
    simp [Bind.bind, Except.bind] at h
  · rw [h1] at h
    rcases h2 : pyDiv (getKV stats "system.cpu.icache.overallHits::total" (.int 0))
        (getKV stats "system.cpu.icache.overallAccesses::total" (.int 1)) with e | ih
    · rw [h2] at h
      simp [Bind.bind, Except.bind] at h
    · rw [h2] at h
      simp only [Bind.bind, Except.bind, Pure.pure, Except.pure,
        Except.ok.injEq] at h
      refine ⟨dh, ih, rfl, rfl, ?_, ?_⟩
      · rw [← h]
      · rw [← h]

/-- C5 (amended): in every successfully parsed comparison report all
pattern-extracted quantities (counts, rates, times — every key other than
the three derived hit rates) are non-negative, since the capture class
admits no sign; each derived hit rate equals `1 − miss_rate` and lies in
`[0, 1]` exactly when the parsed miss rate lies in `[0, 1]`, which the
code does not enforce; and the DLP count-based hit rate `hits/accesses`
lies in `[0, 1]` whenever `0 ≤ hits ≤ accesses` with positive accesses. -/
theorem c5_rate_bounds_amended :
    (∀ (content : String) (m : List (String × ℚ)) (k : String) (q : ℚ),
        RP.parse_content content = some m →
        k ≠ "icache_hit_rate" → k ≠ "dcache_hit_rate" → k ≠ "l2cache_hit_rate" →
        lookupKV m k = some q → 0 ≤ q)
    ∧ (∀ (content : String) (m : List (String × ℚ)) (q : ℚ),
        RP.parse_content content = some m →
        lookupKV m "dcache_miss_rate" = some q → 0 ≤ q → q ≤ 1 →
        lookupKV m "dcache_hit_rate" = some (1 - q) ∧ 0 ≤ 1 - q ∧ 1 - q ≤ 1)
    ∧ (∀ (content : String) (m : List (String × ℚ)) (q : ℚ),
        RP.parse_content content = some m →
        lookupKV m "icache_miss_rate" = some q → 0 ≤ q → q ≤ 1 →
        lookupKV m "icache_hit_rate" = some (1 - q) ∧ 0 ≤ 1 - q ∧ 1 - q ≤ 1)
    ∧ (∀ (content : String) (m : List (String × ℚ)) (q : ℚ),
        RP.parse_content content = some m →
        lookupKV m "l2cache_miss_rate" = some q → 0 ≤ q → q ≤ 1 →
        lookupKV m "l2cache_hit_rate" = some (1 - q) ∧ 0 ≤ 1 - q ∧ 1 - q ≤ 1)
    ∧ (∀ (stats : List (String × Value)) (r : DLP.KeyMetrics) (hv av : Value)
        (qh qa : ℚ),
        DLP.extract_key_metrics stats = .ok r →
        lookupKV stats "system.cpu.dcache.overallHits::total" = some hv →
        valQ? hv = some qh →
        lookupKV stats "system.cpu.dcache.overallAccesses::total" = some av →
        valQ? av = some qa →
        0 ≤ qh → qh ≤ qa → 0 < qa →
        r.dcache_hit_rate = .finite (qh / qa) ∧ 0 ≤ qh / qa ∧ qh / qa ≤ 1) := by
  refine ⟨?_, ?_, ?_, ?_, ?_⟩
  · intro content m k q h hk1 hk2 hk3 hl
    unfold RP.parse_content at h
    split at h
    · exact absurd h (by simp)
    · rename_i m0 hm0
      rw [Option.some.injEq] at h
      subst h
      rw [addHitRates_other m0 hk1 hk2 hk3] at hl
      exact extractLoop_nonneg RP.patterns content.toList m0 hm0 (k, q)
        (lookupKV_mem hl)
  · intro content m q h hl h0 h1
    unfold RP.parse_content at h
    split at h
    · exact absurd h (by simp)
    · rename_i m0 hm0
      rw [Option.some.injEq] at h
      subst h
      rw [addHitRates_other m0 (by decide) (by decide) (by decide)] at hl
      refine ⟨?_, by linarith, by linarith⟩
      rw [addHitRates_dcache m0]
      unfold getKV
      rw [hl]
      rfl
  · intro content m q h hl h0 h1
    unfold RP.parse_content at h
    split at h
    · exact absurd h (by simp)
    · rename_i m0 hm0
      rw [Option.some.injEq] at h
      subst h
      rw [addHitRates_other m0 (by decide) (by decide) (by decide)] at hl
      refine ⟨?_, by linarith, by linarith⟩
      rw [addHitRates_icache m0]
      unfold getKV
      rw [hl]
      rfl
  · intro content m q h hl h0 h1
    unfold RP.parse_content at h
    split at h
    · exact absurd h (by simp)
    · rename_i m0 hm0
      rw [Option.some.injEq] at h
      subst h
      rw [addHitRates_other m0 (by decide) (by decide) (by decide)] at hl
      refine ⟨?_, by linarith, by linarith⟩
      rw [addHitRates_l2 m0]
      unfold getKV
      rw [hl]
      rfl
  · intro stats r hv av qh qa hok hlh hqh hla hqa h0 hle hpos
    obtain ⟨dh, ih, hd1, _, hrd, _⟩ := extract_key_metrics_ok hok
    have hgh : getKV stats "system.cpu.dcache.overallHits::total" (Value.int 0) = hv := by
      unfold getKV
      rw [hlh]
      rfl
    have hga : getKV stats "system.cpu.dcache.overallAccesses::total" (Value.int 1) = av := by
      unfold getKV
      rw [hla]
      rfl
    rw [hgh, hga, pyDiv_finite hqh hqa (ne_of_gt hpos)] at hd1
    rw [Except.ok.injEq] at hd1
    refine ⟨?_, div_nonneg h0 (le_of_lt hpos), (div_le_one hpos).mpr hle⟩
    rw [hrd, ← hd1]

/-- Witness for C5 at a concrete report (miss rate 0.25) and concrete DLP
stats (1 hit of 2 accesses). -/
theorem c5_witness :
    ((0 : ℚ) ≤ 1/4)
    ∧ (lookupKV
        [("sim_seconds", (0 : ℚ)), ("sim_insts", 0), ("ipc", 0), ("num_cycles", 0),
         ("icache_miss_rate", 0), ("dcache_miss_rate", 1/4), ("l2cache_miss_rate", 0),
         ("icache_misses", 0), ("dcache_misses", 0), ("l2cache_misses", 0),
         ("icache_hit_rate", 1), ("dcache_hit_rate", 3/4), ("l2cache_hit_rate", 1)]
        "dcache_hit_rate" = some (1 - 1/4)
       ∧ (0 : ℚ) ≤ 1 - 1/4 ∧ (1 : ℚ) - 1/4 ≤ 1)
    ∧ (({ sim_seconds := Value.int 0, sim_ticks := Value.int 0,
          sim_insts := Value.int 0, ipc := Value.int 0,
          dcache_hit_rate := PyFloat.finite ((1 : ℚ) / 2),
          icache_hit_rate := PyFloat.finite 0 } : DLP.KeyMetrics).dcache_hit_rate =
            PyFloat.finite ((1 : ℚ) / 2)
       ∧ (0 : ℚ) ≤ (1 : ℚ) / 2 ∧ (1 : ℚ) / 2 ≤ 1) :=
  ⟨c5_rate_bounds_amended.1 "system.cpu.dcache.overallMissRate::total 0.25"
     [("sim_seconds", (0 : ℚ)), ("sim_insts", 0), ("ipc", 0), ("num_cycles", 0),
      ("icache_miss_rate", 0), ("dcache_miss_rate", 1/4), ("l2cache_miss_rate", 0),
      ("icache_misses", 0), ("dcache_misses", 0), ("l2cache_misses", 0),
      ("icache_hit_rate", 1), ("dcache_hit_rate", 3/4), ("l2cache_hit_rate", 1)]
     "dcache_miss_rate" (1/4) (by decide) (by decide) (by decide) (by decide)
     (by decide),
   c5_rate_bounds_amended.2.1 "system.cpu.dcache.overallMissRate::total 0.25"
     [("sim_seconds", (0 : ℚ)), ("sim_insts", 0), ("ipc", 0), ("num_cycles", 0),
      ("icache_miss_rate", 0), ("dcache_miss_rate", 1/4), ("l2cache_miss_rate", 0),
      ("icache_misses", 0), ("dcache_misses", 0), ("l2cache_misses", 0),
      ("icache_hit_rate", 1), ("dcache_hit_rate", 3/4), ("l2cache_hit_rate", 1)]
     (1/4) (by decide) (by decide) (by norm_num) (by norm_num),
   c5_rate_bounds_amended.2.2.2.2
     [("system.cpu.dcache.overallHits::total", Value.int 1),
      ("system.cpu.dcache.overallAccesses::total", Value.int 2)]
     { sim_seconds := Value.int 0, sim_ticks := Value.int 0,
       sim_insts := Value.int 0, ipc := Value.int 0,
       dcache_hit_rate := PyFloat.finite ((1 : ℚ) / 2),
       icache_hit_rate := PyFloat.finite 0 }
     (Value.int 1) (Value.int 2) 1 2 (by decide) (by decide) (by decide)
     (by decide) (by decide) (by norm_num) (by norm_num) (by norm_num)⟩

/-- C6 (amended): `calculate_energy` computes `power × time` and
`calculate_energy_efficiency` computes `workload_size / energy` as pure
arithmetic whenever their denominators are nonzero; the instruction-count
denominator of `energy_per_inst` in `calculate_power_metrics` is guarded,
yielding the sentinel 0 whenever `sim_insts ≤ 0` (in particular for zero
`sim_insts` and any nonzero `sim_seconds`); the energy denominator of
`calculate_energy_efficiency` is not guarded, so a zero denominator there
is a division fault, not a sentinel. -/
theorem c6_energy_derivations_amended :
    (∀ (c : EE.ProcessorConfig) (w p : ℚ),
        EE.calculate_performance c w = .ok p → p ≠ 0 →
        EE.calculate_energy c w = .ok (EE.calculate_power c 1 * (w / p)))
    ∧ (∀ (c : EE.ProcessorConfig) (w e : ℚ),
        EE.calculate_energy c w = .ok e → e ≠ 0 →
        EE.calculate_energy_efficiency c w = .ok (w / e))
    ∧ (∀ (pow15 : ℚ → ℚ) (ss si : ℚ) (op : String), si ≤ 0 →
        (RP.calculate_power_metrics pow15 ss si op).energy_per_inst_pJ = 0) := by
  refine ⟨?_, ?_, ?_⟩
  · intro c w p hp hp0
    unfold EE.calculate_energy
    rw [hp]
    simp [Bind.bind, Except.bind, Pure.pure, Except.pure, pyDivQ, hp0]
  · intro c w e he he0
    unfold EE.calculate_energy_efficiency
    rw [he]
    simp [Bind.bind, Except.bind, pyDivQ, he0]
  · intro pow15 ss si op hsi
    simp only [RP.calculate_power_metrics]
    rw [if_neg (not_lt.mpr hsi)]
    norm_num

/-- Witness for C6 at the scalar configuration, workload one million, and
zero instruction count. -/
theorem c6_witness :
    EE.calculate_energy EE.scalarCPU 1000000 =
      .ok (EE.calculate_power EE.scalarCPU 1 * ((1000000 : ℚ) / 2975000000))
    ∧ EE.calculate_energy_efficiency EE.scalarCPU 1000000 =
      .ok ((1000000 : ℚ) / (13/595))
    ∧ (RP.calculate_power_metrics (fun _ => 0) 1 0 "balanced").energy_per_inst_pJ = 0 :=
  ⟨c6_energy_derivations_amended.1 EE.scalarCPU 1000000 2975000000 (by decide)
     (by norm_num),
   c6_energy_derivations_amended.2.1 EE.scalarCPU 1000000 (13/595) (by decide)
     (by norm_num),
   c6_energy_derivations_amended.2.2 (fun _ => 0) 1 0 "balanced" (by norm_num)⟩

lemma extractLoop_keys :
    ∀ (ps : List (String × List Char × Bool)) (c : List Char)
      (l : List (String × ℚ)),
      RP.extractLoop ps c = some l → l.map Prod.fst = ps.map Prod.fst := by
  intro ps
  induction ps with
  | nil =>
    intro c l h
    unfold RP.extractLoop at h
    rw [Option.some.injEq] at h
    subst h
    rfl
  | cons p ps ih =>
    intro c l h
    obtain ⟨k, lit, dotted⟩ := p
    unfold RP.extractLoop at h
    split at h
    · split at h
      · rename_i rest hrest
        rw [Option.some.injEq] at h
        subst h
        simp [ih c rest hrest]
      · exact absurd h (by simp)
    · split at h
      · exact absurd h (by simp)
      · split at h
        · rename_i rest hrest
          rw [Option.some.injEq] at h
          subst h
          simp [ih c rest hrest]
        · exact absurd h (by simp)

lemma extractLoop_default :
    ∀ (ps : List (String × List Char × Bool)) (c : List Char)
      (l : List (String × ℚ)) (k : String) (lit : List Char) (dotted : Bool),
      (ps.map Prod.fst).Nodup →
      RP.extractLoop ps c = some l →
      (k, lit, dotted) ∈ ps →
      searchPat lit dotted c = none →
      lookupKV l k = some 0 := by
  intro ps
  induction ps with
  | nil =>
    intro c l k lit dotted _ _ hm _
    simp at hm
  | cons p ps ih =>
    intro c l k lit dotted hnd h hm hs
    obtain ⟨k0, lit0, dotted0⟩ := p
    rw [List.map_cons, List.nodup_cons] at hnd
    unfold RP.extractLoop at h
    rcases List.mem_cons.mp hm with hm | hm
    · obtain ⟨rfl, rfl, rfl⟩ := by simpa using hm
      simp only [hs] at h
      split at h
      · rename_i rest hrest
        rw [Option.some.injEq] at h
        subst h
        simp [lookupKV]
      · exact absurd h (by simp)
    · have hkmem : k ∈ ps.map Prod.fst := List.mem_map_of_mem Prod.fst hm
      have hk0 : k0 ≠ k := by
        intro he
        rw [he] at hnd
        exact hnd.1 hkmem
      split at h
      · split at h
        · rename_i rest hrest
          rw [Option.some.injEq] at h
          subst h
          simp only [lookupKV, if_neg hk0]
          exact ih c rest k lit dotted hnd.2 hrest hm hs
        · exact absurd h (by simp)
      · split at h
        · exact absurd h (by simp)
        · split at h
          · rename_i rest hrest
            rw [Option.some.injEq] at h
            subst h
            simp only [lookupKV, if_neg hk0]
            exact ih c rest k lit dotted hnd.2 hrest hm hs
          · exact absurd h (by simp)

lemma addHitRates_keys {m : List (String × ℚ)}
    (h : m.map Prod.fst =
      ["sim_seconds", "sim_insts", "ipc", "num_cycles", "icache_miss_rate",
       "dcache_miss_rate", "l2cache_miss_rate", "icache_misses", "dcache_misses",
       "l2cache_misses"]) :
    (RP.addHitRates m).map Prod.fst =
      ["sim_seconds", "sim_insts", "ipc", "num_cycles", "icache_miss_rate",
       "dcache_miss_rate", "l2cache_miss_rate", "icache_misses", "dcache_misses",
       "l2cache_misses", "icache_hit_rate", "dcache_hit_rate",
       "l2cache_hit_rate"] := by
  have h1 := insertKV_notMem m "icache_hit_rate" (1 - getKV m "icache_miss_rate" 0)
    (by rw [h]; decide)
  simp only [RP.addHitRates]
  rw [h1]
  have hm1 : (m ++ [("icache_hit_rate", 1 - getKV m "icache_miss_rate" 0)]).map
      Prod.fst =
      ["sim_seconds", "sim_insts", "ipc", "num_cycles", "icache_miss_rate",
       "dcache_miss_rate", "l2cache_miss_rate", "icache_misses", "dcache_misses",
       "l2cache_misses", "icache_hit_rate"] := by
    rw [List.map_append, h]
    rfl
  have h2 := insertKV_notMem
    (m ++ [("icache_hit_rate", 1 - getKV m "icache_miss_rate" 0)])
    "dcache_hit_rate"
    (1 - getKV (m ++ [("icache_hit_rate", 1 - getKV m "icache_miss_rate" 0)])
      "dcache_miss_rate" 0)
    (by rw [hm1]; decide)
  rw [h2]
  have hm2 : ((m ++ [("icache_hit_rate", 1 - getKV m "icache_miss_rate" 0)]) ++
      [("dcache_hit_rate",
        1 - getKV (m ++ [("icache_hit_rate", 1 - getKV m "icache_miss_rate" 0)])
          "dcache_miss_rate" 0)]).map Prod.fst =
      ["sim_seconds", "sim_insts", "ipc", "num_cycles", "icache_miss_rate",
       "dcache_miss_rate", "l2cache_miss_rate", "icache_misses", "dcache_misses",
       "l2cache_misses", "icache_hit_rate", "dcache_hit_rate"] := by
    rw [List.map_append, hm1]
    rfl
  have h3 := insertKV_notMem
    ((m ++ [("icache_hit_rate", 1 - getKV m "icache_miss_rate" 0)]) ++
      [("dcache_hit_rate",
        1 - getKV (m ++ [("icache_hit_rate", 1 - getKV m "icache_miss_rate" 0)])
          "dcache_miss_rate" 0)])
    "l2cache_hit_rate"
    (1 - getKV ((m ++ [("icache_hit_rate", 1 - getKV m "icache_miss_rate" 0)]) ++
      [("dcache_hit_rate",
        1 - getKV (m ++ [("icache_hit_rate", 1 - getKV m "icache_miss_rate" 0)])
          "dcache_miss_rate" 0)]) "l2cache_miss_rate" 0)
    (by rw [hm2]; decide)
  rw [h3, List.map_append, hm2]
  rfl

/-- C10 (amended): whenever `parse_stats_file` of
`extract_comparison_report.py` succeeds — that is, no matched capture
fails `float`, which a capture like `..` does — the returned mapping holds
exactly the ten pattern keys followed by the three derived hit-rate keys,
each bound to a numeric value, with 0.0 substituted for every pattern that
finds no match; on a failed capture the function returns `None` instead. -/
theorem c10_output_shape_amended :
    ∀ (content : String) (m : List (String × ℚ)),
      RP.parse_content content = some m →
      m.map Prod.fst =
        ["sim_seconds", "sim_insts", "ipc", "num_cycles", "icache_miss_rate",
         "dcache_miss_rate", "l2cache_miss_rate", "icache_misses",
         "dcache_misses", "l2cache_misses", "icache_hit_rate",
         "dcache_hit_rate", "l2cache_hit_rate"]
      ∧ (∀ (k : String) (lit : List Char) (dotted : Bool),
          (k, lit, dotted) ∈ RP.patterns →
          searchPat lit dotted content.toList = none →
          lookupKV m k = some 0) := by
  intro content m h
  unfold RP.parse_content at h
  split at h
  · exact absurd h (by simp)
  · rename_i m0 hm0
    rw [Option.some.injEq] at h
    subst h
    have hk0 : m0.map Prod.fst =
        ["sim_seconds", "sim_insts", "ipc", "num_cycles", "icache_miss_rate",
         "dcache_miss_rate", "l2cache_miss_rate", "icache_misses",
         "dcache_misses", "l2cache_misses"] := by
      rw [extractLoop_keys RP.patterns content.toList m0 hm0]
      rfl
    refine ⟨addHitRates_keys hk0, ?_⟩
    intro k lit dotted hp hs
    have hkmem : k ∈ RP.patterns.map Prod.fst := List.mem_map_of_mem Prod.fst hp
    have hten : k ∈
        ["sim_seconds", "sim_insts", "ipc", "num_cycles", "icache_miss_rate",
         "dcache_miss_rate", "l2cache_miss_rate", "icache_misses",
         "dcache_misses", "l2cache_misses"] := by
      rwa [show RP.patterns.map Prod.fst =
        ["sim_seconds", "sim_insts", "ipc", "num_cycles", "icache_miss_rate",
         "dcache_miss_rate", "l2cache_miss_rate", "icache_misses",
         "dcache_misses", "l2cache_misses"] from rfl] at hkmem
    have hne := (by decide :
      ∀ x ∈ ["sim_seconds", "sim_insts", "ipc", "num_cycles", "icache_miss_rate",
             "dcache_miss_rate", "l2cache_miss_rate", "icache_misses",
             "dcache_misses", "l2cache_misses"],
        x ≠ "icache_hit_rate" ∧ x ≠ "dcache_hit_rate" ∧ x ≠ "l2cache_hit_rate")
      k hten
    rw [addHitRates_other m0 hne.1 hne.2.1 hne.2.2]
    exact extractLoop_default RP.patterns content.toList m0 k lit dotted
      (by decide) hm0 hp hs

/-- Witness for C10 at a report holding only `sim_seconds 0.5`: all
thirteen keys are present in order and the unmatched `ipc` pattern
defaults to 0. -/
theorem c10_witness :
    ([("sim_seconds", (1/2 : ℚ)), ("sim_insts", 0), ("ipc", 0),
      ("num_cycles", 0), ("icache_miss_rate", 0), ("dcache_miss_rate", 0),
      ("l2cache_miss_rate", 0), ("icache_misses", 0), ("dcache_misses", 0),
      ("l2cache_misses", 0), ("icache_hit_rate", 1), ("dcache_hit_rate", 1),
      ("l2cache_hit_rate", 1)]).map Prod.fst =
      ["sim_seconds", "sim_insts", "ipc", "num_cycles", "icache_miss_rate",
       "dcache_miss_rate", "l2cache_miss_rate", "icache_misses",
       "dcache_misses", "l2cache_misses", "icache_hit_rate",
       "dcache_hit_rate", "l2cache_hit_rate"]
    ∧ lookupKV
        [("sim_seconds", (1/2 : ℚ)), ("sim_insts", 0), ("ipc", 0),
         ("num_cycles", 0), ("icache_miss_rate", 0), ("dcache_miss_rate", 0),
         ("l2cache_miss_rate", 0), ("icache_misses", 0), ("dcache_misses", 0),
         ("l2cache_misses", 0), ("icache_hit_rate", 1), ("dcache_hit_rate", 1),
         ("l2cache_hit_rate", 1)] "ipc" = some 0 :=
  ⟨(c10_output_shape_amended "sim_seconds 0.5"
      [("sim_seconds", (1/2 : ℚ)), ("sim_insts", 0), ("ipc", 0),
       ("num_cycles", 0), ("icache_miss_rate", 0), ("dcache_miss_rate", 0),
       ("l2cache_miss_rate", 0), ("icache_misses", 0), ("dcache_misses", 0),
       ("l2cache_misses", 0), ("icache_hit_rate", 1), ("dcache_hit_rate", 1),
       ("l2cache_hit_rate", 1)] (by decide)).1,
   (c10_output_shape_amended "sim_seconds 0.5"
      [("sim_seconds", (1/2 : ℚ)), ("sim_insts", 0), ("ipc", 0),
       ("num_cycles", 0), ("icache_miss_rate", 0), ("dcache_miss_rate", 0),
       ("l2cache_miss_rate", 0), ("icache_misses", 0), ("dcache_misses", 0),
       ("l2cache_misses", 0), ("icache_hit_rate", 1), ("dcache_hit_rate", 1),
       ("l2cache_hit_rate", 1)] (by decide)).2 "ipc" "system.cpu.ipc".toList true
     (by decide) (by decide)⟩
